import Mathlib

/-!
Verification development for the OAAS S3 upload service (`app/service.py`,
`app/schemas.py`, `app/routers.py`).

The service code is shallowly embedded: pure helpers (`_generate_key`,
`_hash_string`, `get_oaas_directory`, file-name resolution, ZIP-entry
grouping) become Lean functions translated line by line from the Python
source; effectful collaborators (HTTP fetch, ZIP container, S3 upload,
base64 decode, the wall clock) become explicit oracle fields of an `Env`
record, and each pipeline (`save_oaas_folder`, `save_oaas_files`,
`upload_product_bytes`) becomes a pure function of the `Env` and the
request. `hashlib.sha256` / `hashlib.sha1` are embedded as executable
FIPS-180 implementations over byte lists so that digest-dependent claims
can be evaluated.
-/

set_option maxRecDepth 4096

namespace Oaas

/-- Raw byte strings (each element is a byte value `< 256`), modelling
Python `bytes`. -/
abbrev Bytes := List Nat

/-- The modulus for 32-bit machine arithmetic. -/
def M32 : Nat := 4294967296

/-- 32-bit right rotation. -/
def rotr32 (n x : Nat) : Nat := ((x >>> n) ||| (x <<< (32 - n))) % M32

/-- 32-bit left rotation. -/
def rotl32 (n x : Nat) : Nat := ((x <<< n) ||| (x >>> (32 - n))) % M32

/-- UTF-8 encoding of one code point. -/
def utf8Char (c : Char) : List Nat :=
  let n := c.toNat
  if n < 128 then [n]
  else if n < 2048 then [192 + n / 64, 128 + n % 64]
  else if n < 65536 then [224 + n / 4096, 128 + (n / 64) % 64, 128 + n % 64]
  else [240 + n / 262144, 128 + (n / 4096) % 64, 128 + (n / 64) % 64, 128 + n % 64]

/-- Python `s.encode('utf-8')`. -/
def utf8Encode (s : String) : List Nat := (s.data.map utf8Char).flatten

/-- Big-endian 8-byte encoding of a number (the length field of SHA padding). -/
def be64 (n : Nat) : List Nat :=
  [n >>> 56 % 256, n >>> 48 % 256, n >>> 40 % 256, n >>> 32 % 256,
   n >>> 24 % 256, n >>> 16 % 256, n >>> 8 % 256, n % 256]

/-- MD-strengthening padding shared by SHA-1 and SHA-256: append `128`,
zero bytes up to 56 mod 64, then the bit length as 8 big-endian bytes. -/
def sha2Pad (msg : List Nat) : List Nat :=
  msg ++ 128 :: (List.replicate ((120 - (msg.length + 1) % 64) % 64) 0 ++ be64 (8 * msg.length))

/-- Fuel-bounded chunking worker. -/
def chunksGo (n : Nat) : Nat → List Nat → List (List Nat)
  | 0, _ => []
  | _, [] => []
  | fuel + 1, l => l.take n :: chunksGo n fuel (l.drop n)

/-- Split a list into consecutive chunks of `n` elements. -/
def chunksOf (n : Nat) (l : List Nat) : List (List Nat) := chunksGo n l.length l

/-- Big-endian 32-bit word from 4 bytes. -/
def word4 : List Nat → Nat
  | [a, b, c, d] => ((a * 256 + b) * 256 + c) * 256 + d
  | _ => 0

/-- The SHA-256 round constants. -/
def sha256K : Array Nat := #[
  1116352408, 1899447441, 3049323471, 3921009573, 961987163,
  1508970993, 2453635748, 2870763221, 3624381080, 310598401,
  607225278, 1426881987, 1925078388, 2162078206, 2614888103,
  3248222580, 3835390401, 4022224774, 264347078, 604807628,
  770255983, 1249150122, 1555081692, 1996064986, 2554220882,
  2821834349, 2952996808, 3210313671, 3336571891, 3584528711,
  113926993, 338241895, 666307205, 773529912, 1294757372,
  1396182291, 1695183700, 1986661051, 2177026350, 2456956037,
  2730485921, 2820302411, 3259730800, 3345764771, 3516065817,
  3600352804, 4094571909, 275423344, 430227734, 506948616,
  659060556, 883997877, 958139571, 1322822218, 1537002063,
  1747873779, 1955562222, 2024104815, 2227730452, 2361852424,
  2428436474, 2756734187, 3204031479, 3329325298]

/-- Extend 16 message words to the 64-word SHA-256 schedule. -/
def sha256Schedule (ws : Array Nat) : Array Nat :=
  (List.range 48).foldl (fun w i =>
    let w15 := w.getD (i + 1) 0
    let w2 := w.getD (i + 14) 0
    let s0 := rotr32 7 w15 ^^^ rotr32 18 w15 ^^^ (w15 >>> 3)
    let s1 := rotr32 17 w2 ^^^ rotr32 19 w2 ^^^ (w2 >>> 10)
    w.push ((w.getD i 0 + s0 + w.getD (i + 9) 0 + s1) % M32)) ws

/-- The eight 32-bit words of SHA-256 chaining state. -/
structure Sha256State where
  a : Nat
  b : Nat
  c : Nat
  d : Nat
  e : Nat
  f : Nat
  g : Nat
  h : Nat
  deriving DecidableEq

/-- SHA-256 initial state. -/
def sha256Init : Sha256State :=
  ⟨1779033703, 3144134277, 1013904242, 2773480762, 1359893119, 2600822924, 528734635, 1541459225⟩

/-- One SHA-256 compression round. -/
def sha256Round (w : Array Nat) (st : Sha256State) (i : Nat) : Sha256State :=
  let s1 := rotr32 6 st.e ^^^ rotr32 11 st.e ^^^ rotr32 25 st.e
  let ch := (st.e &&& st.f) ^^^ ((st.e ^^^ 4294967295) &&& st.g)
  let t1 := (st.h + s1 + ch + sha256K.getD i 0 + w.getD i 0) % M32
  let s0 := rotr32 2 st.a ^^^ rotr32 13 st.a ^^^ rotr32 22 st.a
  let mj := (st.a &&& st.b) ^^^ (st.a &&& st.c) ^^^ (st.b &&& st.c)
  let t2 := (s0 + mj) % M32
  ⟨(t1 + t2) % M32, st.a, st.b, st.c, (st.d + t1) % M32, st.e, st.f, st.g⟩

/-- SHA-256 compression of one 64-byte block into the chaining state. -/
def sha256Compress (st : Sha256State) (block : List Nat) : Sha256State :=
  let w := sha256Schedule ((chunksOf 4 block).map word4).toArray
  let t := (List.range 64).foldl (sha256Round w) st
  ⟨(st.a + t.a) % M32, (st.b + t.b) % M32, (st.c + t.c) % M32, (st.d + t.d) % M32,
   (st.e + t.e) % M32, (st.f + t.f) % M32, (st.g + t.g) % M32, (st.h + t.h) % M32⟩

/-- Big-endian bytes of a 32-bit word. -/
def wordBytesBE (w : Nat) : List Nat := [w >>> 24 % 256, w >>> 16 % 256, w >>> 8 % 256, w % 256]

/-- Serialize the SHA-256 state to the 32 digest bytes. -/
def sha256StateBytes (st : Sha256State) : List Nat :=
  wordBytesBE st.a ++ wordBytesBE st.b ++ wordBytesBE st.c ++ wordBytesBE st.d ++
  wordBytesBE st.e ++ wordBytesBE st.f ++ wordBytesBE st.g ++ wordBytesBE st.h

/-- SHA-256 digest (32 bytes) of a byte string. -/
def sha256BytesOf (msg : List Nat) : List Nat :=
  sha256StateBytes ((chunksOf 64 (sha2Pad msg)).foldl sha256Compress sha256Init)

/-- Lower-case hex digit. -/
def hexDigitChar (n : Nat) : Char := "0123456789abcdef".data.getD n '0'

/-- Lower-case hex rendering of a byte string. -/
def bytesToHex (bs : List Nat) : List Char :=
  (bs.map (fun b => [hexDigitChar (b / 16), hexDigitChar (b % 16)])).flatten

/-- Python `hashlib.sha256(s.encode('utf-8')).hexdigest()`. -/
def sha256hex (s : String) : String := String.mk (bytesToHex (sha256BytesOf (utf8Encode s)))

/-- The five 32-bit words of SHA-1 chaining state. -/
structure Sha1State where
  a : Nat
  b : Nat
  c : Nat
  d : Nat
  e : Nat
  deriving DecidableEq

/-- SHA-1 initial state. -/
def sha1Init : Sha1State := ⟨1732584193, 4023233417, 2562383102, 271733878, 3285377520⟩

/-- Extend 16 message words to the 80-word SHA-1 schedule. -/
def sha1Schedule (ws : Array Nat) : Array Nat :=
  (List.range 64).foldl (fun w i =>
    w.push (rotl32 1 (w.getD (i + 13) 0 ^^^ w.getD (i + 8) 0 ^^^ w.getD (i + 2) 0 ^^^ w.getD i 0))) ws

/-- One SHA-1 compression round. -/
def sha1Round (w : Array Nat) (st : Sha1State) (i : Nat) : Sha1State :=
  let fk : Nat × Nat :=
    if i < 20 then ((st.b &&& st.c) ||| ((st.b ^^^ 4294967295) &&& st.d), 1518500249)
    else if i < 40 then (st.b ^^^ st.c ^^^ st.d, 1859775393)
    else if i < 60 then ((st.b &&& st.c) ||| (st.b &&& st.d) ||| (st.c &&& st.d), 2400959708)
    else (st.b ^^^ st.c ^^^ st.d, 3395469782)
  let temp := (rotl32 5 st.a + fk.1 + st.e + fk.2 + w.getD i 0) % M32
  ⟨temp, st.a, rotl32 30 st.b, st.c, st.d⟩

/-- SHA-1 compression of one 64-byte block into the chaining state. -/
def sha1Compress (st : Sha1State) (block : List Nat) : Sha1State :=
  let w := sha1Schedule ((chunksOf 4 block).map word4).toArray
  let t := (List.range 80).foldl (sha1Round w) st
  ⟨(st.a + t.a) % M32, (st.b + t.b) % M32, (st.c + t.c) % M32, (st.d + t.d) % M32,
   (st.e + t.e) % M32⟩

/-- SHA-1 digest (20 bytes) of a byte string. -/
def sha1BytesOf (msg : List Nat) : List Nat :=
  let st := (chunksOf 64 (sha2Pad msg)).foldl sha1Compress sha1Init
  wordBytesBE st.a ++ wordBytesBE st.b ++ wordBytesBE st.c ++ wordBytesBE st.d ++ wordBytesBE st.e

/-- Python `hashlib.sha1(s.encode('utf-8')).hexdigest()`. -/
def sha1hex (s : String) : String := String.mk (bytesToHex (sha1BytesOf (utf8Encode s)))

/-! ### Python string and path helpers used by `service.py` -/

/-- The character set of `str.strip("/ ")`. -/
def isStripChar (c : Char) : Bool := c = '/' || c = ' '

/-- Python `s.strip("/ ")` on a character list: remove characters of the
set from both ends. -/
def pyStripL (cs : List Char) : List Char :=
  ((cs.dropWhile isStripChar).reverse.dropWhile isStripChar).reverse

/-- Python `s.strip("/ ")`. -/
def pyStrip (s : String) : String := String.mk (pyStripL s.data)

/-- The suffix after the last `/`, the whole list when there is none.
This is Python `s.split('/')[-1]`, and also `posixpath.basename`
(`os.path.basename` on the service's POSIX paths). -/
def afterLastSlashL (cs : List Char) : List Char :=
  cs.foldl (fun acc c => if c = '/' then [] else acc ++ [c]) []

/-- Python `s.split('/')[-1]` / `os.path.basename(s)`. -/
def afterLastSlash (s : String) : String := String.mk (afterLastSlashL s.data)

/-- The suffix after the last `.` — Python `s.split('.')[-1]`. -/
def afterLastDotL (cs : List Char) : List Char :=
  cs.foldl (fun acc c => if c = '.' then [] else acc ++ [c]) []

/-- Python `s.split('.')[-1]`. -/
def afterLastDot (s : String) : String := String.mk (afterLastDotL s.data)

/-- Python `s.split('.')[0]`. -/
def beforeFirstDot (s : String) : String := String.mk (s.data.takeWhile (fun c => c ≠ '.'))

/-- Python `s.endswith('/')`. -/
def endsWithSlash (s : String) : Bool :=
  match s.data.getLast? with
  | some c => c = '/'
  | none => false

/-- Remove trailing characters satisfying `p` (Python `rstrip`). -/
def dropTrailing (p : Char → Bool) (cs : List Char) : List Char :=
  (cs.reverse.dropWhile p).reverse

/-- Model of `posixpath.dirname`: everything up to the last `/`, with trailing
slashes stripped unless the head consists only of slashes. -/
def pyDirnameL (cs : List Char) : List Char :=
  let head := cs.take (cs.length - (afterLastSlashL cs).length)
  if head.isEmpty || head.all (fun c => c = '/') then head
  else dropTrailing (fun c => c = '/') head

/-- Python `os.path.dirname`. -/
def pyDirname (s : String) : String := String.mk (pyDirnameL s.data)

/-- Model of `posixpath.splitext` on a character list: split off the extension at
the last dot, provided that dot lies after the last slash and the base
name before it is not made of dots only (so `.bashrc` has no extension). -/
def splitextL (cs : List Char) : List Char × List Char :=
  let n := cs.length
  let sepi := n - (afterLastSlashL cs).length
  let doti := n - (afterLastDotL cs).length
  if sepi < doti ∧ ¬ ((cs.drop sepi).take (doti - 1 - sepi)).all (fun c => c = '.') then
    (cs.take (doti - 1), cs.drop (doti - 1))
  else (cs, [])

/-- Python `os.path.splitext`. -/
def splitext (s : String) : String × String :=
  let p := splitextL s.data
  (String.mk p.1, String.mk p.2)

/-- Python `str.lower` (ASCII range; the extensions it is applied to are
ASCII). -/
def pyLower (s : String) : String := String.mk (s.data.map Char.toLower)

/-! ### Data model (`app/schemas.py`) -/

/-- The `InboundDocumentType` enum. -/
inductive InboundDocumentType
  | PDF
  | IMAGE
  | ZIP
  | JSON
  | PNG
  | BINARY
  deriving DecidableEq

/-- The string value of each enum member. -/
def InboundDocumentType.value : InboundDocumentType → String
  | .PDF => "application/pdf"
  | .IMAGE => "image/jpeg"
  | .ZIP => "application/zip"
  | .JSON => "application/json"
  | .PNG => "image/png"
  | .BINARY => "binary/octet-stream"

/-- The `Image` model: a declared content kind and a source URL. -/
structure Image where
  image_type : InboundDocumentType
  url : String
  deriving DecidableEq

/-- The `ZipFolderInfo` model. -/
structure ZipFolderInfo where
  url : String
  deriving DecidableEq

/-- The `Product` model of the URL-list pipeline. -/
structure Product where
  tmp_code : String
  images : List Image
  deriving DecidableEq

/-- The `User` model: `mobile_no` plus the optional `company_name`
(defaulting to `""`, so modelled as a plain string). -/
structure User where
  mobile_no : String
  company_name : String := ""
  deriving DecidableEq

/-- The `OaasFolderRequest` model. -/
structure OaasFolderRequest where
  user : User
  zip_folder : ZipFolderInfo
  tenant : String := "placeorder"

/-- The `OaasFileRequest` model. -/
structure OaasFileRequest where
  user : User
  product : Product
  tenant : String := "placeorder"

/-- The `ImageBytes` model of the inline-bytes pipeline. -/
structure ImageBytes where
  image_name : String
  image_type : InboundDocumentType
  image_bytes : String
  deriving DecidableEq

/-- The `ProductBytes` model. -/
structure ProductBytes where
  product_code : String
  images : List ImageBytes
  deriving DecidableEq

/-- The `S3UploadFileBytesRequest` model. -/
structure S3UploadFileBytesRequest where
  user : User
  products : List ProductBytes
  tenant : String := "placeorder"

/-! ### Effect oracles

Network, ZIP container, S3 client, base64 decoder and wall clock are
external collaborators; each is an oracle field.  `Except.error` models a
raised exception carrying `str(e)`. -/

/-- Outcome of `aiohttp` fetch: `aiohttp.ClientError` (including
`raise_for_status`) versus any other exception. -/
inductive FetchError
  | clientError (msg : String)
  | otherError (msg : String)
  deriving DecidableEq

/-- Outcome of `ZipFile(...)`: `BadZipFile` versus any other exception. -/
inductive ZipError
  | badZip
  | otherError (msg : String)
  deriving DecidableEq

instance {ε α : Type} [DecidableEq ε] [DecidableEq α] : DecidableEq (Except ε α) := fun x y =>
  match x, y with
  | .error a, .error b =>
    if h : a = b then .isTrue (by rw [h]) else .isFalse (by simp [h])
  | .ok a, .ok b =>
    if h : a = b then .isTrue (by rw [h]) else .isFalse (by simp [h])
  | .error _, .ok _ => .isFalse (fun hc => Except.noConfusion hc)
  | .ok _, .error _ => .isFalse (fun hc => Except.noConfusion hc)

/-- One ZIP member as exposed by `namelist()` / `read(name)`; `content`
is an error when `read` raises for this member. -/
structure ZipEntry where
  path : String
  content : Except String Bytes
  deriving DecidableEq

/-- A broken-down wall-clock time as consumed by
`time.strftime('%Y%m%d_%H%M%S')`. -/
structure Timestamp where
  year : Nat
  month : Nat
  day : Nat
  hour : Nat
  minute : Nat
  second : Nat
  deriving DecidableEq

/-- The external world: each field models one collaborator call.  `clock n`
is the time observed by the `n`-th `strftime` call of the request. -/
structure Env where
  fetch : String → Except FetchError Bytes
  unzip : Bytes → Except ZipError (List ZipEntry)
  urlPath : String → String
  s3upload : String → String → Bytes → Except String String
  b64decode : String → Except String Bytes
  clock : Nat → Timestamp

/-- Zero-padded two-digit rendering of an in-range field (`%m%d`,
`%H%M%S`). -/
def pad2 (n : Nat) : String := String.mk [hexDigitChar (n / 10), hexDigitChar (n % 10)]

/-- Zero-padded four-digit rendering of an in-range year (`%Y`). -/
def pad4 (n : Nat) : String :=
  String.mk [hexDigitChar (n / 1000), hexDigitChar (n / 100 % 10),
    hexDigitChar (n / 10 % 10), hexDigitChar (n % 10)]

/-- Model of `time.strftime('%Y%m%d_%H%M%S')` applied to a broken-down time. -/
def strftimeCompact (t : Timestamp) : String :=
  pad4 t.year ++ pad2 t.month ++ pad2 t.day ++ "_" ++ pad2 t.hour ++ pad2 t.minute ++ pad2 t.second

/-! ### Key derivation (`service.py` lines 35-58) -/

/-- Model of `S3FileService._generate_key`: strip the characters of `"/ "`
from both ends of the joined directory, then append the file name. -/
def generate_key (directory file_name : String) : String :=
  pyStrip directory ++ "/" ++ file_name

/-- Model of `S3FileService._hash_string`: SHA-256 hex digest of the UTF-8 bytes. -/
def hash_string (input_string : String) : String := sha256hex input_string

/-- Model of `S3FileService.get_oaas_directory`. -/
def get_oaas_directory (tenant : String) (user : User) (product_code : String) : String :=
  tenant ++ "/" ++ hash_string user.mobile_no ++ "/" ++ product_code

/-- The full storage key that reaches S3: `get_oaas_directory` composed
with `_generate_key` (as done by `save_file` / `upload_file_bytes`). -/
def oaasKey (tenant : String) (user : User) (group file_name : String) : String :=
  generate_key (get_oaas_directory tenant user group) file_name

/-- Model of `S3FileService.save_file` and `upload_file_bytes`: derive the key and
hand the stream to the S3 client oracle, which returns the object URL or
raises. -/
def save_file (env : Env) (content : Bytes) (file_name directory content_type : String) :
    Except String String :=
  env.s3upload (generate_key directory file_name) content_type content

/-! ### Pipeline B — `save_oaas_files` (lines 60-154) -/

/-- The extension→content-type dict used for ZIP-extracted members
(lines 110-115 and 215-220). -/
def extContentType (file_ext : String) : String :=
  if file_ext = ".pdf" then InboundDocumentType.PDF.value
  else if file_ext = ".jpg" then InboundDocumentType.IMAGE.value
  else if file_ext = ".jpeg" then InboundDocumentType.IMAGE.value
  else if file_ext = ".png" then InboundDocumentType.PNG.value
  else InboundDocumentType.BINARY.value

/-- Extension synthesized from the declared content type when the URL
yields no file name (lines 134-138). -/
def ctExtension (content_type_value : String) : String :=
  let extension := afterLastSlash content_type_value
  if extension = "octet-stream" then "bin"
  else if extension = "jpeg" then "jpg"
  else extension

/-- File name for a non-archive entry (lines 132-139): the base name of
the URL path, or a synthesized `image_<sha1-prefix>.<ext>` name when the
URL supplies none. -/
def urlFileName (env : Env) (image_url content_type_value : String) : String :=
  let file_name_from_url := afterLastSlash (env.urlPath image_url)
  if file_name_from_url = "" then
    "image_" ++ (sha1hex image_url).take 8 ++ "." ++ ctExtension content_type_value
  else file_name_from_url

/-- Per-member body of the ZIP branch of `save_oaas_files`
(lines 96-127): directories are skipped, a member with an empty base name
is skipped, and any failure becomes one error string. -/
def processZipEntryB (env : Env) (base_directory : String) (ze : ZipEntry) : List String :=
  if endsWithSlash ze.path then []
  else
    match ze.content with
    | .error e => ["Error processing file " ++ ze.path ++ " from ZIP: " ++ e]
    | .ok file_content =>
      let original_filename := afterLastSlash ze.path
      if original_filename = "" then []
      else
        let file_ext := pyLower (splitext original_filename).2
        let img_content_type := extContentType file_ext
        match save_file env file_content original_filename base_directory img_content_type with
        | .ok s3_url => [s3_url]
        | .error e => ["Error processing file " ++ ze.path ++ " from ZIP: " ++ e]

/-- Per-image body of `save_oaas_files` (lines 75-153): the strings this
image contributes to the product's result list. -/
def processImage (env : Env) (base_directory : String) (image_item : Image) : List String :=
  let image_url_str := image_item.url
  let content_type_value := image_item.image_type.value
  match env.fetch image_url_str with
  | .error (.clientError m) => ["Error downloading " ++ image_url_str ++ ": " ++ m]
  | .error (.otherError m) => ["Error processing " ++ image_url_str ++ ": " ++ m]
  | .ok content_bytes =>
    if image_item.image_type = InboundDocumentType.ZIP then
      match env.unzip content_bytes with
      | .error .badZip => ["Invalid ZIP file format: " ++ image_url_str]
      | .error (.otherError m) => ["Error processing " ++ image_url_str ++ ": " ++ m]
      | .ok entries => (entries.map (processZipEntryB env base_directory)).flatten
    else
      match save_file env content_bytes (urlFileName env image_url_str content_type_value)
          base_directory content_type_value with
      | .ok s3_url => [s3_url]
      | .error e => ["Error processing " ++ image_url_str ++ ": " ++ e]

/-- Model of `S3FileService.save_oaas_files`: single-key mapping from the product
code to the concatenated per-image contributions. -/
def save_oaas_files (env : Env) (request : OaasFileRequest) : List (String × List String) :=
  let base_directory := get_oaas_directory request.tenant request.user request.product.tmp_code
  [(request.product.tmp_code,
    (request.product.images.map (processImage env base_directory)).flatten)]

/-! ### Pipeline A — `save_oaas_folder` (lines 156-247) -/

/-- Model of `os.path.dirname(file_path).split('/')[-1]` (line 184). -/
def parentFolder (file_path : String) : String := afterLastSlash (pyDirname file_path)

/-- Append `v` to the list at key `k`, creating the key at the end on
first use — the dict update of lines 187-189. -/
def dictAppend (d : List (String × List String)) (k v : String) : List (String × List String) :=
  match d with
  | [] => [(k, [v])]
  | (k1, l) :: rest => if k1 = k then (k1, l ++ [v]) :: rest else (k1, l) :: dictAppend rest k v

/-- One step of the grouping loop over `namelist()` (lines 181-189). -/
def addEntry (acc : List (String × List String)) (file_path : String) :
    List (String × List String) :=
  if endsWithSlash file_path then acc
  else
    let parent_folder := parentFolder file_path
    if parent_folder = "" then acc
    else dictAppend acc parent_folder file_path

/-- The `folder_files` grouping of `save_oaas_folder` (lines 180-189). -/
def groupEntries (namelist : List String) : List (String × List String) :=
  namelist.foldl addEntry []

/-- Model of `zip_ref.read(file_path)`: the content of the first member with that
name, or a `KeyError` when absent. -/
def readZip (entries : List ZipEntry) (file_path : String) : Except String Bytes :=
  match entries.find? (fun ze => ze.path == file_path) with
  | some ze => ze.content
  | none => .error ("There is no item named " ++ file_path ++ " in the archive")

/-- Per-file body of `save_oaas_folder` (lines 200-236): the string
appended to the folder's list and the next clock index (`strftime` runs
once per file, after the member was read successfully). -/
def processFolderFile (env : Env) (entries : List ZipEntry) (folder_directory : String)
    (k : Nat) (file_path : String) : String × Nat :=
  match readZip entries file_path with
  | .error e => ("Error processing file " ++ file_path ++ ": " ++ e, k)
  | .ok file_content =>
    let original_filename := afterLastSlash file_path
    let ne := splitext original_filename
    let timestamp := strftimeCompact (env.clock k)
    let file_name := ne.1 ++ "_" ++ timestamp ++ ne.2
    let file_ext := pyLower (splitext file_name).2
    let content_type := extContentType file_ext
    match save_file env file_content file_name folder_directory content_type with
    | .ok s3_url => (s3_url, k + 1)
    | .error e => ("Error processing file " ++ file_path ++ ": " ++ e, k + 1)

/-- The inner file loop of one folder (lines 200-236), threading the
clock index. -/
def processFolderFiles (env : Env) (entries : List ZipEntry) (folder_directory : String) :
    Nat → List String → List String × Nat
  | k, [] => ([], k)
  | k, f :: fs =>
    let rk := processFolderFile env entries folder_directory k f
    let rest := processFolderFiles env entries folder_directory rk.2 fs
    (rk.1 :: rest.1, rest.2)

/-- The folder loop of `save_oaas_folder` (lines 192-236). -/
def processFolders (env : Env) (entries : List ZipEntry) (tenant : String) (user : User) :
    Nat → List (String × List String) → List (String × List String) × Nat
  | k, [] => ([], k)
  | k, (folder_name, files) :: rest =>
    let folder_directory := get_oaas_directory tenant user folder_name
    let rf := processFolderFiles env entries folder_directory k files
    let rrest := processFolders env entries tenant user rf.2 rest
    ((folder_name, rf.1) :: rrest.1, rrest.2)

/-- Model of `S3FileService.save_oaas_folder`: request-fatal on archive fetch
failure or a corrupt container, per-file error strings afterwards. -/
def save_oaas_folder (env : Env) (request : OaasFolderRequest) :
    Except String (List (String × List String)) :=
  match env.fetch request.zip_folder.url with
  | .error (.clientError m) => .error ("Failed to fetch zip file: " ++ m)
  | .error (.otherError m) => .error ("Error processing zip file: " ++ m)
  | .ok zip_content =>
    match env.unzip zip_content with
    | .error .badZip => .error "Invalid zip file format"
    | .error (.otherError m) => .error ("Error processing zip file: " ++ m)
    | .ok entries =>
      let folder_files := groupEntries (entries.map (fun ze => ze.path))
      .ok (processFolders env entries request.tenant request.user 0 folder_files).1

/-- An HTTP endpoint outcome: a 200 body or an `HTTPException`. -/
inductive HttpResult (α : Type)
  | ok (body : α)
  | httpError (status : Nat) (detail : String)

/-- The `POST /upload/oaas/folder` route (`routers.py` lines 26-43):
any exception raised by pipeline A becomes HTTP 500 with its message. -/
def upload_oaas_folder (env : Env) (request : OaasFolderRequest) :
    HttpResult (List (String × List String)) :=
  match save_oaas_folder env request with
  | .ok file_urls => .ok file_urls
  | .error e => .httpError 500 e

/-! ### Pipeline C — `upload_product_bytes` (lines 342-374) -/

/-- Per-image body of `upload_product_bytes` (lines 357-372): any failure
(base64 decode or upload) is logged and skipped, contributing no entry. -/
def processImageBytes (env : Env) (base_directory timestamp : String) (image : ImageBytes) :
    List String :=
  let ext := afterLastDot image.image_name
  let file_name := beforeFirstDot image.image_name
  let image_name := file_name ++ "_" ++ timestamp ++ "." ++ ext
  match env.b64decode image.image_bytes with
  | .error _ => []
  | .ok image_bytes =>
    match save_file env image_bytes image_name base_directory image.image_type.value with
    | .ok s3_url => [s3_url]
    | .error _ => []

/-- Set key `k` to `v`, keeping its position when present, appending at
the end otherwise — Python dict assignment. -/
def dictSet (d : List (String × List String)) (k : String) (v : List String) :
    List (String × List String) :=
  match d with
  | [] => [(k, v)]
  | (k1, l) :: rest => if k1 = k then (k1, v) :: rest else (k1, l) :: dictSet rest k v

/-- Per-product body of `upload_product_bytes` (lines 351-372): one
`strftime` call (clock index `k`) shared by all images of the product. -/
def processProduct (env : Env) (tenant : String) (user : User) (k : Nat)
    (product : ProductBytes) : List String :=
  let base_directory := get_oaas_directory tenant user product.product_code
  let timestamp := strftimeCompact (env.clock k)
  (product.images.map (processImageBytes env base_directory timestamp)).flatten

/-- The product loop of `upload_product_bytes`, threading the clock
index. -/
def uploadProductsGo (env : Env) (tenant : String) (user : User) :
    Nat → List (String × List String) → List ProductBytes → List (String × List String)
  | _, acc, [] => acc
  | k, acc, p :: ps =>
    uploadProductsGo env tenant user (k + 1)
      (dictSet acc p.product_code (processProduct env tenant user k p)) ps

/-- Model of `S3FileService.upload_product_bytes`. -/
def upload_product_bytes (env : Env) (request : S3UploadFileBytesRequest) :
    List (String × List String) :=
  uploadProductsGo env request.tenant request.user 0 [] request.products

/-- Lookup in an insertion-ordered dict. -/
def dictLookup (d : List (String × List String)) (k : String) : Option (List String) :=
  match d with
  | [] => none
  | (k1, l) :: rest => if k1 = k then some l else dictLookup rest k

/-- The keys of an insertion-ordered dict. -/
def dictKeys (d : List (String × List String)) : List String := d.map (fun p => p.1)

/-- Combine a dict-lookup result observed before a grouping run with the
list of entries the run appends under that key (specification device for
characterising `groupEntries`). -/
def extendLookup : Option (List String) → List String → Option (List String)
  | some l, f => some (l ++ f)
  | none, f => if f.isEmpty then none else some f

/-! ### Supplementary predicates and concrete sample inputs -/

/-- First character exists and is not removed by `strip("/ ")`. -/
def headNotStrip (s : String) : Bool :=
  match s.data with
  | [] => false
  | c :: _ => !isStripChar c

/-- Last character exists and is not removed by `strip("/ ")`. -/
def lastNotStrip (s : String) : Bool :=
  match s.data.reverse with
  | [] => false
  | c :: _ => !isStripChar c

/-- Claim-side format check following the specification wording: a compact
timestamp of the form YYYYMMDD_HHMMSS, i.e. eight digits, one underscore,
six digits. -/
def isCompactTimestamp (s : String) : Bool :=
  s.data.length = 15 && (s.data.take 8).all Char.isDigit
    && s.data.getD 8 ' ' = '_' && (s.data.drop 9).all Char.isDigit

/-- A sample user. -/
def userEx : User := { mobile_no := "9999999999" }

/-- The same mobile number with a different company name. -/
def userEx2 : User := { mobile_no := "9999999999", company_name := "Acme" }

/-- Concrete environment for failure scenarios: fetching url 2 fails with
a client error, other fetches succeed, ZIP containers are corrupt, the S3
client echoes public URLs, base64 decoding always fails. -/
def envB : Env where
  fetch := fun url => if url = "http://h/2.jpg" then .error (.clientError "boom") else .ok [1]
  unzip := fun _ => .error .badZip
  urlPath := fun url => url.drop 8
  s3upload := fun key _ _ => .ok ("https://bucket.s3.amazonaws.com/" ++ key)
  b64decode := fun _ => .error "Incorrect padding"
  clock := fun _ => ⟨2024, 1, 2, 3, 4, 5⟩

/-- A three-image request for pipeline B whose second fetch fails under
`envB`. -/
def reqB : OaasFileRequest :=
  { user := userEx,
    product := { tmp_code := "P1",
                 images := [⟨.IMAGE, "http://h/1.jpg"⟩, ⟨.IMAGE, "http://h/2.jpg"⟩,
                            ⟨.IMAGE, "http://h/3.jpg"⟩] },
    tenant := "placeorder" }

/-- A folder request; under `envB` its archive bytes are not a valid ZIP. -/
def reqA : OaasFolderRequest :=
  { user := userEx, zip_folder := ⟨"http://h/f.zip"⟩, tenant := "placeorder" }

/-- A one-product inline-bytes request whose single image has undecodable
base64 content under `envB`. -/
def reqC : S3UploadFileBytesRequest :=
  { user := userEx, products := [⟨"PX", [⟨"i.jpg", .IMAGE, "xx"⟩]⟩], tenant := "placeorder" }

/-- Environment where every upload echoes its key back and decoding
succeeds. -/
def envC : Env where
  fetch := fun _ => .ok []
  unzip := fun _ => .ok []
  urlPath := fun u => u
  s3upload := fun key _ _ => .ok key
  b64decode := fun _ => .ok [0]
  clock := fun _ => ⟨2024, 1, 1, 0, 0, 0⟩

/-- Environment whose URL parse yields an empty path, forcing synthesized
file names. -/
def envC8 : Env := { envC with urlPath := fun _ => "" }

/-! ### Helper lemmas -/

theorem dropWhile_eq_self_of_head (p : Char → Bool) (c : Char) (l : List Char)
    (h : p c = false) : (c :: l).dropWhile p = c :: l := by
  simp [List.dropWhile_cons, h]

theorem pyStripL_eq_self {c1 c2 : Char} {l1 l2 : List Char} (cs : List Char)
    (e1 : cs = c1 :: l1) (e2 : cs.reverse = c2 :: l2)
    (h1 : isStripChar c1 = false) (h2 : isStripChar c2 = false) :
    pyStripL cs = cs := by
  unfold pyStripL
  rw [e1, dropWhile_eq_self_of_head _ _ _ h1, ← e1, e2,
    dropWhile_eq_self_of_head _ _ _ h2, ← e2, List.reverse_reverse]

theorem string_mk_data (s : String) : String.mk s.data = s := rfl

theorem pyStrip_eq_self (s : String) (h1 : headNotStrip s = true)
    (h2 : lastNotStrip s = true) : pyStrip s = s := by
  unfold headNotStrip at h1
  unfold lastNotStrip at h2
  unfold pyStrip
  cases e1 : s.data with
  | nil => rw [e1] at h1; simp at h1
  | cons c l =>
    cases e2 : s.data.reverse with
    | nil => rw [e2] at h2; simp at h2
    | cons c2 l2 =>
      rw [e1] at h1
      rw [e2] at h2
      simp only [Bool.not_eq_true'] at h1 h2
      have key : pyStripL (c :: l) = c :: l :=
        pyStripL_eq_self (c :: l) rfl (by rw [← e1]; exact e2) h1 h2
      rw [key, ← e1]

theorem headNotStrip_append (s t : String) (h : headNotStrip s = true) :
    headNotStrip (s ++ t) = true := by
  unfold headNotStrip at h ⊢
  rw [String.data_append]
  cases e : s.data with
  | nil => rw [e] at h; simp at h
  | cons c l => rw [e] at h; simpa using h

theorem lastNotStrip_append (s t : String) (h : lastNotStrip t = true) :
    lastNotStrip (s ++ t) = true := by
  unfold lastNotStrip at h ⊢
  rw [String.data_append, List.reverse_append]
  cases e : t.data.reverse with
  | nil => rw [e] at h; simp at h
  | cons c l => rw [e] at h; simpa using h

theorem stripDirectory (tenant hash group : String)
    (h1 : headNotStrip tenant = true) (h2 : lastNotStrip group = true) :
    pyStrip (tenant ++ "/" ++ hash ++ "/" ++ group) = tenant ++ "/" ++ hash ++ "/" ++ group :=
  pyStrip_eq_self _
    (headNotStrip_append _ group
      (headNotStrip_append _ "/" (headNotStrip_append _ hash (headNotStrip_append _ "/" h1))))
    (lastNotStrip_append _ _ h2)

theorem pyStripL_cons_strip (c : Char) (l : List Char) (h : isStripChar c = true) :
    pyStripL (c :: l) = pyStripL l := by
  unfold pyStripL
  rw [List.dropWhile_cons]
  simp [h]

theorem pyStripL_snoc_strip {c1 : Char} {l1 : List Char} (c : Char)
    (h1 : isStripChar c1 = false) (hc : isStripChar c = true) :
    pyStripL ((c1 :: l1) ++ [c]) = pyStripL (c1 :: l1) := by
  unfold pyStripL
  rw [List.cons_append, dropWhile_eq_self_of_head _ _ _ h1,
      dropWhile_eq_self_of_head _ _ _ h1, ← List.cons_append, List.reverse_append]
  simp only [List.reverse_cons, List.reverse_nil, List.nil_append, List.singleton_append]
  rw [List.dropWhile_cons]
  simp [hc]

theorem oaasKey_congr_strip (t1 t2 : String) (user : User) (g1 g2 f : String)
    (h : pyStrip (t1 ++ "/" ++ hash_string user.mobile_no ++ "/" ++ g1)
       = pyStrip (t2 ++ "/" ++ hash_string user.mobile_no ++ "/" ++ g2)) :
    oaasKey t1 user g1 f = oaasKey t2 user g2 f := by
  unfold oaasKey generate_key get_oaas_directory
  rw [h]

theorem data_quad (a b c : String) :
    (a ++ "/" ++ b ++ "/" ++ c).data = a.data ++ '/' :: (b.data ++ '/' :: c.data) := by
  simp only [String.data_append, List.append_assoc]
  rfl

theorem sha256StateBytes_length (st : Sha256State) : (sha256StateBytes st).length = 32 := by
  simp [sha256StateBytes, wordBytesBE]

theorem bytesToHex_length (bs : List Nat) : (bytesToHex bs).length = 2 * bs.length := by
  induction bs with
  | nil => rfl
  | cons b bs ih =>
    simp only [bytesToHex, List.map_cons, List.flatten_cons, List.length_append,
      List.length_cons, List.length_nil, List.length_map] at ih ⊢
    omega

theorem hash_string_length (s : String) : (hash_string s).length = 64 := by
  show (bytesToHex (sha256BytesOf (utf8Encode s))).length = 64
  rw [bytesToHex_length]
  unfold sha256BytesOf
  rw [sha256StateBytes_length]

/-! ### Claim theorems: key derivation (C1, C7, C9, C10) -/

/-- C1 counterexample: for the tenant "/t" — a legal string input — the
derived key is not of the claimed form: the leading slash is stripped. -/
theorem C1_counterexample :
    oaasKey "/t" userEx "g" "f.jpg"
      ≠ "/t" ++ "/" ++ hash_string userEx.mobile_no ++ "/" ++ "g" ++ "/" ++ "f.jpg" := by
  decide

/-- C1 (amended): for every tenant whose first character is not a path
separator or space and every group whose last character is not one, the
derived storage key equals tenant/sha256hex(mobile)/group/fileName; key
derivation is deterministic for all inputs. -/
theorem C1_key_format (tenant group file_name : String) (user : User)
    (h1 : headNotStrip tenant = true) (h2 : lastNotStrip group = true) :
    oaasKey tenant user group file_name
      = tenant ++ "/" ++ hash_string user.mobile_no ++ "/" ++ group ++ "/" ++ file_name
    ∧ ∀ (t2 : String) (u2 : User) (g2 f2 : String),
        tenant = t2 → user = u2 → group = g2 → file_name = f2 →
        oaasKey tenant user group file_name = oaasKey t2 u2 g2 f2 := by
  constructor
  · unfold oaasKey generate_key get_oaas_directory
    rw [stripDirectory _ _ _ h1 h2]
  · intro t2 u2 g2 f2 e1 e2 e3 e4
    rw [e1, e2, e3, e4]

/-- C1 witness at a concrete input. -/
theorem C1_key_format_witness :
    headNotStrip "t" = true ∧ lastNotStrip "g" = true
    ∧ oaasKey "t" userEx "g" "f.jpg"
        = "t" ++ "/" ++ hash_string userEx.mobile_no ++ "/" ++ "g" ++ "/" ++ "f.jpg" :=
  ⟨by decide, by decide, (C1_key_format "t" "g" "f.jpg" userEx (by decide) (by decide)).1⟩

/-- C7 counterexample: a trailing separator on the tenant is not trimmed
(it is interior to the joined directory), so the key for tenant "t/"
differs from the key for tenant "t" and carries an empty path segment. -/
theorem C7_counterexample :
    oaasKey "t/" userEx "g" "f.jpg" ≠ oaasKey "t" userEx "g" "f.jpg" := by
  decide

/-- C7 (amended): trimming acts on the two ends of the joined directory
tenant/hash/group: leading separators and spaces of the tenant are
trimmed (key for "/t" or " t" equals the key for "t"), trailing ones of
the group are trimmed, and for tenant/group shaped as in C1 the key has
no empty segment introduced by trimming; a trailing separator of the
tenant itself survives (see the counterexample). -/
theorem C7_tenant_trim (tenant group file_name : String) (user : User)
    (h1 : headNotStrip tenant = true) :
    oaasKey ("/" ++ tenant) user group file_name = oaasKey tenant user group file_name
    ∧ oaasKey (" " ++ tenant) user group file_name = oaasKey tenant user group file_name
    ∧ oaasKey tenant user (group ++ "/") file_name = oaasKey tenant user group file_name := by
  refine ⟨?_, ?_, ?_⟩
  · apply oaasKey_congr_strip
    unfold pyStrip
    congr 1
  · apply oaasKey_congr_strip
    unfold pyStrip
    congr 1
  · apply oaasKey_congr_strip
    unfold pyStrip
    congr 1
    rw [data_quad, data_quad]
    unfold headNotStrip at h1
    cases e1 : tenant.data with
    | nil => exact absurd h1 (by rw [e1]; decide)
    | cons c1 l1 =>
      rw [e1] at h1
      simp only [Bool.not_eq_true'] at h1
      have step : pyStripL ((c1 :: (l1 ++ '/' :: ((hash_string user.mobile_no).data
            ++ '/' :: group.data))) ++ ['/'])
          = pyStripL (c1 :: (l1 ++ '/' :: ((hash_string user.mobile_no).data
            ++ '/' :: group.data))) := pyStripL_snoc_strip '/' h1 (by decide)
      have harg : (c1 :: l1) ++ '/' :: ((hash_string user.mobile_no).data
            ++ '/' :: (group.data ++ ['/']))
          = (c1 :: (l1 ++ '/' :: ((hash_string user.mobile_no).data ++ '/' :: group.data)))
            ++ ['/'] := by simp
      exact (congrArg pyStripL harg).trans step

/-- C7 witness at a concrete input. -/
theorem C7_tenant_trim_witness :
    oaasKey "/t" userEx "g" "f.jpg" = oaasKey "t" userEx "g" "f.jpg" :=
  (C7_tenant_trim "t" "g" "f.jpg" userEx (by decide)).1

/-- C9 counterexample: the hash segment of the short user identifier "a"
does contain "a" as a substring (the hex digest of "a" starts
"ca97..."). -/
theorem C9_counterexample : List.IsInfix "a".data (hash_string "a").data := by
  decide

/-- C9 (amended): the hash path segment has fixed length 64, so for every
user identifier longer than 64 characters the segment cannot contain the
identifier as a substring. -/
theorem C9_hash_one_way (s : String) (h : 64 < s.length) :
    ¬ List.IsInfix s.data (hash_string s).data := by
  intro hin
  have hl := hin.length_le
  have h64 : (hash_string s).data.length = 64 := hash_string_length s
  have hs : s.data.length = s.length := rfl
  omega

/-- C9 witness at a concrete input of length 65. -/
theorem C9_hash_one_way_witness :
    ¬ List.IsInfix (String.mk (List.replicate 65 'a')).data
        (hash_string (String.mk (List.replicate 65 'a'))).data :=
  C9_hash_one_way (String.mk (List.replicate 65 'a')) (by decide)

/-- C10: key derivation reads only the mobile number from the user: two
users agreeing on `mobile_no` produce identical directories and storage
keys, whatever their `company_name`. -/
theorem C10_company_name_independent (tenant group file_name : String) (u1 u2 : User)
    (h : u1.mobile_no = u2.mobile_no) :
    get_oaas_directory tenant u1 group = get_oaas_directory tenant u2 group
    ∧ oaasKey tenant u1 group file_name = oaasKey tenant u2 group file_name := by
  have hd : get_oaas_directory tenant u1 group = get_oaas_directory tenant u2 group := by
    unfold get_oaas_directory hash_string
    rw [h]
  exact ⟨hd, by unfold oaasKey; rw [hd]⟩

/-- C10 witness: two concrete users differing only in company name. -/
theorem C10_company_name_independent_witness :
    get_oaas_directory "placeorder" userEx "P1" = get_oaas_directory "placeorder" userEx2 "P1" :=
  (C10_company_name_independent "placeorder" "P1" "f.jpg" userEx userEx2 rfl).1

/-! ### Helper lemmas for the pipeline claims -/

theorem append4_length_ne_zero (a : String) (b : String) (c : String) (m : String)
    (ha : a.length = 18 ∨ a.length = 17) : a ++ b ++ c ++ m ≠ "" := by
  intro hc
  have hlen := congrArg String.length hc
  rw [String.length_append, String.length_append, String.length_append] at hlen
  have h0 : ("" : String).length = 0 := rfl
  omega

theorem flatten_nil_of_all {α β : Type} (l : List α) (f : α → List β)
    (h : ∀ x ∈ l, f x = []) : (l.map f).flatten = [] := by
  induction l with
  | nil => rfl
  | cons a t ih =>
    simp only [List.map_cons, List.flatten_cons, h a (by simp), List.nil_append]
    exact ih (fun x hx => h x (by simp [hx]))

theorem dictSet_lookup_self (d : List (String × List String)) (k : String)
    (v : List String) : dictLookup (dictSet d k v) k = some v := by
  induction d with
  | nil => simp [dictSet, dictLookup]
  | cons p rest ih =>
    by_cases h : p.1 = k
    · simp [dictSet, dictLookup, h]
    · simp [dictSet, dictLookup, h, ih]

theorem dictSet_lookup_other (d : List (String × List String)) (k k' : String)
    (v : List String) (h : k' ≠ k) : dictLookup (dictSet d k' v) k = dictLookup d k := by
  induction d with
  | nil => simp [dictSet, dictLookup, h]
  | cons p rest ih =>
    by_cases hp : p.1 = k'
    · simp [dictSet, dictLookup, hp, h]
    · simp only [dictSet, hp, if_neg hp, dictLookup]
      by_cases hk : p.1 = k
      · simp [hk]
      · simp [hk, ih]

theorem dictSet_keys_mem (d : List (String × List String)) (k : String)
    (v : List String) : k ∈ dictKeys (dictSet d k v) := by
  induction d with
  | nil => simp [dictSet, dictKeys]
  | cons p rest ih =>
    by_cases h : p.1 = k
    · simp [dictSet, dictKeys, h]
    · simp only [dictSet, if_neg h, dictKeys, List.map_cons, List.mem_cons]
      exact Or.inr ih

theorem dictSet_keys_mono (d : List (String × List String)) (k' : String)
    (v : List String) (k : String) (h : k ∈ dictKeys d) :
    k ∈ dictKeys (dictSet d k' v) := by
  induction d with
  | nil => simp [dictKeys] at h
  | cons p rest ih =>
    by_cases hp : p.1 = k'
    · simpa [dictSet, dictKeys, hp] using h
    · simp only [dictKeys, List.map_cons, List.mem_cons] at h
      rcases h with h | h
      · simp [dictSet, if_neg hp, dictKeys, h]
      · simp only [dictSet, if_neg hp, dictKeys, List.map_cons, List.mem_cons]
        exact Or.inr (ih h)

theorem uploadGo_keys_mono (env : Env) (t : String) (u : User)
    (ps : List ProductBytes) : ∀ (k : Nat) (acc : List (String × List String)) (c : String),
    c ∈ dictKeys acc → c ∈ dictKeys (uploadProductsGo env t u k acc ps) := by
  induction ps with
  | nil => intro k acc c h; exact h
  | cons p rest ih =>
    intro k acc c h
    exact ih (k + 1) _ c (dictSet_keys_mono acc p.product_code _ c h)

theorem uploadGo_keys (env : Env) (t : String) (u : User) (ps : List ProductBytes) :
    ∀ (k : Nat) (acc : List (String × List String)) (p : ProductBytes), p ∈ ps →
    p.product_code ∈ dictKeys (uploadProductsGo env t u k acc ps) := by
  induction ps with
  | nil => intro k acc p h; simp at h
  | cons q rest ih =>
    intro k acc p h
    rcases List.mem_cons.mp h with h | h
    · subst h
      exact uploadGo_keys_mono env t u rest (k + 1) _ p.product_code
        (dictSet_keys_mem acc p.product_code _)
    · exact ih (k + 1) _ p h

theorem uploadGo_lookup_not_mem (env : Env) (t : String) (u : User)
    (ps : List ProductBytes) (c : String)
    (h : c ∉ ps.map (fun p => p.product_code)) :
    ∀ (k : Nat) (acc : List (String × List String)),
    dictLookup (uploadProductsGo env t u k acc ps) c = dictLookup acc c := by
  induction ps with
  | nil => intro k acc; rfl
  | cons p rest ih =>
    intro k acc
    simp only [List.map_cons, List.mem_cons, not_or] at h
    rw [show uploadProductsGo env t u k acc (p :: rest)
        = uploadProductsGo env t u (k + 1)
            (dictSet acc p.product_code (processProduct env t u k p)) rest from rfl,
      ih (fun hm => h.2 hm) (k + 1) _,
      dictSet_lookup_other acc c p.product_code _ (fun he => h.1 he.symm)]

theorem uploadGo_lookup (env : Env) (t : String) (u : User) :
    ∀ (ps : List ProductBytes) (i : Nat) (hi : i < ps.length) (k : Nat)
      (acc : List (String × List String)),
      (ps.map (fun p => p.product_code)).Nodup →
      dictLookup (uploadProductsGo env t u k acc ps) (ps.get ⟨i, hi⟩).product_code
        = some (processProduct env t u (k + i) (ps.get ⟨i, hi⟩)) := by
  intro ps
  induction ps with
  | nil => intro i hi; simp at hi
  | cons p rest ih =>
    intro i hi k acc hnd
    simp only [List.map_cons, List.nodup_cons] at hnd
    cases i with
    | zero =>
      show dictLookup (uploadProductsGo env t u (k + 1)
        (dictSet acc p.product_code (processProduct env t u k p)) rest) p.product_code = _
      rw [uploadGo_lookup_not_mem env t u rest p.product_code hnd.1 (k + 1) _,
        dictSet_lookup_self]
      simp
    | succ j =>
      have hj : j < rest.length := by simpa using hi
      show dictLookup (uploadProductsGo env t u (k + 1)
          (dictSet acc p.product_code (processProduct env t u k p)) rest)
          (rest.get ⟨j, hj⟩).product_code = _
      rw [ih j hj (k + 1) _ hnd.2]
      have harith : k + 1 + j = k + (j + 1) := by omega
      rw [harith]
      rfl

/-! ### Claim theorems: pipelines B, A, C (C2, C3, C8, C5) -/

/-- C2: in pipeline B every per-entry failure (fetch client error, other
fetch error, store write error) is caught at the entry boundary and
becomes exactly one non-empty error string in the single product's
list; entries contribute independently in order (no early abort); in the
concrete 3-URL scenario where the second fetch fails, the product's list
has exactly three entries: URL, error string, URL. -/
theorem C2_per_entry_isolation :
    (∀ (env : Env) (dir : String) (img : Image) (m : String),
        env.fetch img.url = .error (.clientError m) →
        processImage env dir img = ["Error downloading " ++ img.url ++ ": " ++ m]
          ∧ "Error downloading " ++ img.url ++ ": " ++ m ≠ "")
    ∧ (∀ (env : Env) (dir : String) (img : Image) (m : String),
        env.fetch img.url = .error (.otherError m) →
        processImage env dir img = ["Error processing " ++ img.url ++ ": " ++ m])
    ∧ (∀ (env : Env) (dir : String) (img : Image) (bs : Bytes) (e : String),
        env.fetch img.url = .ok bs →
        img.image_type ≠ InboundDocumentType.ZIP →
        save_file env bs (urlFileName env img.url img.image_type.value) dir
            img.image_type.value = .error e →
        processImage env dir img = ["Error processing " ++ img.url ++ ": " ++ e])
    ∧ (∀ (env : Env) (request : OaasFileRequest),
        save_oaas_files env request
          = [(request.product.tmp_code,
              (request.product.images.map (processImage env
                (get_oaas_directory request.tenant request.user
                  request.product.tmp_code))).flatten)])
    ∧ save_oaas_files envB reqB
        = [("P1",
            ["https://bucket.s3.amazonaws.com/placeorder/"
                ++ hash_string "9999999999" ++ "/P1/1.jpg",
              "Error downloading http://h/2.jpg: boom",
              "https://bucket.s3.amazonaws.com/placeorder/"
                ++ hash_string "9999999999" ++ "/P1/3.jpg"])] := by
  refine ⟨?_, ?_, ?_, ?_, ?_⟩
  · intro env dir img m h
    constructor
    · simp only [processImage, h]
    · exact append4_length_ne_zero _ _ _ _ (Or.inl rfl)
  · intro env dir img m h
    simp only [processImage, h]
  · intro env dir img bs e hf hz hs
    simp only [processImage, hf, if_neg hz, hs]
  · intro env request
    rfl
  · decide

/-- C3: pipeline A is request-fatal on archive fetch failure or a corrupt
(non-ZIP) archive: the service raises (no group mapping is produced) and
the route surfaces HTTP 500 with the message; only a successfully
processed request yields a 200 body. -/
theorem C3_folder_fatal :
    (∀ (env : Env) (request : OaasFolderRequest) (m : String),
        env.fetch request.zip_folder.url = .error (.clientError m) →
        save_oaas_folder env request = .error ("Failed to fetch zip file: " ++ m)
          ∧ upload_oaas_folder env request
              = .httpError 500 ("Failed to fetch zip file: " ++ m))
    ∧ (∀ (env : Env) (request : OaasFolderRequest) (m : String),
        env.fetch request.zip_folder.url = .error (.otherError m) →
        save_oaas_folder env request = .error ("Error processing zip file: " ++ m)
          ∧ upload_oaas_folder env request
              = .httpError 500 ("Error processing zip file: " ++ m))
    ∧ (∀ (env : Env) (request : OaasFolderRequest) (zc : Bytes),
        env.fetch request.zip_folder.url = .ok zc →
        env.unzip zc = .error .badZip →
        save_oaas_folder env request = .error "Invalid zip file format"
          ∧ upload_oaas_folder env request = .httpError 500 "Invalid zip file format")
    ∧ (∀ (env : Env) (request : OaasFolderRequest) (r : List (String × List String)),
        save_oaas_folder env request = .ok r → upload_oaas_folder env request = .ok r) := by
  refine ⟨?_, ?_, ?_, ?_⟩
  · intro env request m h
    have hs : save_oaas_folder env request = .error ("Failed to fetch zip file: " ++ m) := by
      simp only [save_oaas_folder, h]
    exact ⟨hs, by simp only [upload_oaas_folder, hs]⟩
  · intro env request m h
    have hs : save_oaas_folder env request = .error ("Error processing zip file: " ++ m) := by
      simp only [save_oaas_folder, h]
    exact ⟨hs, by simp only [upload_oaas_folder, hs]⟩
  · intro env request zc hf hz
    have hs : save_oaas_folder env request = .error "Invalid zip file format" := by
      simp only [save_oaas_folder, hf, hz]
    exact ⟨hs, by simp only [upload_oaas_folder, hs]⟩
  · intro env request r h
    simp only [upload_oaas_folder, h]

/-- C8: in pipeline B a non-archive entry whose URL path yields no base
name gets the synthesized name image_(first 8 hex chars of sha1 of the
URL).(extension from the declared kind), with octet-stream mapped to
bin, jpeg to jpg, and any other kind passed through as the last MIME
path component; an entry whose URL does yield a base name keeps it
unchanged, and the pipeline stores non-archive entries under exactly
that resolved name. -/
theorem C8_url_file_naming :
    (∀ (env : Env) (url ct : String),
        afterLastSlash (env.urlPath url) = "" →
        urlFileName env url ct = "image_" ++ (sha1hex url).take 8 ++ "." ++ ctExtension ct)
    ∧ (∀ (env : Env) (url ct : String),
        afterLastSlash (env.urlPath url) ≠ "" →
        urlFileName env url ct = afterLastSlash (env.urlPath url))
    ∧ ctExtension (InboundDocumentType.BINARY.value) = "bin"
    ∧ ctExtension (InboundDocumentType.IMAGE.value) = "jpg"
    ∧ (∀ ct : String, afterLastSlash ct ≠ "octet-stream" → afterLastSlash ct ≠ "jpeg" →
        ctExtension ct = afterLastSlash ct)
    ∧ (∀ (env : Env) (dir : String) (img : Image) (bs : Bytes),
        env.fetch img.url = .ok bs →
        img.image_type ≠ InboundDocumentType.ZIP →
        processImage env dir img
          = match save_file env bs (urlFileName env img.url img.image_type.value) dir
                img.image_type.value with
            | .ok u => [u]
            | .error e => ["Error processing " ++ img.url ++ ": " ++ e]) := by
  refine ⟨?_, ?_, by decide, by decide, ?_, ?_⟩
  · intro env url ct h
    simp [urlFileName, h]
  · intro env url ct h
    simp only [urlFileName, if_neg h]
  · intro ct h1 h2
    simp only [ctExtension, if_neg h1, if_neg h2]
  · intro env dir img bs hf hz
    simp only [processImage, hf, if_neg hz]

/-- C5: in pipeline C an image whose base64 decoding fails contributes no
entry at all (not an error string); every product of the request appears
as a key of the result; with pairwise-distinct product codes the value
for the i-th product is exactly its per-image contribution list, which
is the empty list when all of its images fail. -/
theorem C5_inline_bytes_policy :
    (∀ (env : Env) (dir ts : String) (image : ImageBytes) (e : String),
        env.b64decode image.image_bytes = .error e →
        processImageBytes env dir ts image = [])
    ∧ (∀ (env : Env) (request : S3UploadFileBytesRequest) (p : ProductBytes),
        p ∈ request.products →
        p.product_code ∈ dictKeys (upload_product_bytes env request))
    ∧ (∀ (env : Env) (request : S3UploadFileBytesRequest) (i : Nat)
        (hi : i < request.products.length),
        (request.products.map (fun p => p.product_code)).Nodup →
        dictLookup (upload_product_bytes env request)
            (request.products.get ⟨i, hi⟩).product_code
          = some (processProduct env request.tenant request.user i
              (request.products.get ⟨i, hi⟩)))
    ∧ (∀ (env : Env) (request : S3UploadFileBytesRequest) (i : Nat)
        (hi : i < request.products.length),
        (request.products.map (fun p => p.product_code)).Nodup →
        (∀ image ∈ (request.products.get ⟨i, hi⟩).images,
          ∃ e, env.b64decode image.image_bytes = .error e) →
        dictLookup (upload_product_bytes env request)
            (request.products.get ⟨i, hi⟩).product_code = some []) := by
  have hfail : ∀ (env : Env) (dir ts : String) (image : ImageBytes) (e : String),
      env.b64decode image.image_bytes = .error e →
      processImageBytes env dir ts image = [] := by
    intro env dir ts image e h
    simp only [processImageBytes, h]
  refine ⟨hfail, ?_, ?_, ?_⟩
  · intro env request p h
    exact uploadGo_keys env request.tenant request.user request.products 0 [] p h
  · intro env request i hi hnd
    unfold upload_product_bytes
    have := uploadGo_lookup env request.tenant request.user request.products i hi 0 [] hnd
    simpa using this
  · intro env request i hi hnd hall
    unfold upload_product_bytes
    have hl := uploadGo_lookup env request.tenant request.user request.products i hi 0 [] hnd
    have hempty : processProduct env request.tenant request.user (0 + i)
        (request.products.get ⟨i, hi⟩) = [] := by
      unfold processProduct
      exact flatten_nil_of_all _ _ (fun image him => by
        obtain ⟨e, he⟩ := hall image him
        exact hfail env _ _ image e he)
    rw [hl, hempty]

/-- C2 witness: the failing second image of the concrete scenario yields
exactly one error entry. -/
theorem C2_per_entry_isolation_witness :
    processImage envB "d" ⟨InboundDocumentType.IMAGE, "http://h/2.jpg"⟩
      = ["Error downloading http://h/2.jpg: boom"] :=
  (C2_per_entry_isolation.1 envB "d" ⟨InboundDocumentType.IMAGE, "http://h/2.jpg"⟩ "boom"
    (by decide)).1

/-- C3 witness: a corrupt archive under `envB` yields HTTP 500 with the
fixed message. -/
theorem C3_folder_fatal_witness :
    upload_oaas_folder envB reqA = .httpError 500 "Invalid zip file format" :=
  (C3_folder_fatal.2.2.1 envB reqA [1] (by decide) (by decide)).2

/-- C8 witness: a URL with an empty path and declared binary kind gets
the synthesized short-hash name. -/
theorem C8_url_file_naming_witness :
    urlFileName envC8 "http://x/" "binary/octet-stream" = "image_89fc4c97.bin" :=
  (C8_url_file_naming.1 envC8 "http://x/" "binary/octet-stream" (by decide)).trans (by decide)

/-! ### Helper lemmas and claim theorem for archive grouping (C4) -/

theorem dictAppend_lookup_self (d : List (String × List String)) (k : String) (v : String) :
    dictLookup (dictAppend d k v) k = some ((dictLookup d k).getD [] ++ [v]) := by
  induction d with
  | nil => simp [dictAppend, dictLookup]
  | cons p rest ih =>
    by_cases h : p.1 = k
    · simp [dictAppend, dictLookup, h]
    · simp [dictAppend, dictLookup, h, ih]

theorem dictAppend_lookup_other (d : List (String × List String)) (k k' : String) (v : String)
    (h : k' ≠ k) : dictLookup (dictAppend d k' v) k = dictLookup d k := by
  induction d with
  | nil => simp [dictAppend, dictLookup, h]
  | cons p rest ih =>
    by_cases hp : p.1 = k'
    · have hpk : p.1 ≠ k := by rw [hp]; exact h
      simp [dictAppend, dictLookup, hp, hpk, h]
    · by_cases hk2 : p.1 = k
      · simp [dictAppend, dictLookup, hp, hk2, Ne.symm h]
      · simp [dictAppend, dictLookup, hp, hk2, ih]

theorem groupEntries_lookup_aux (k : String) (hk : k ≠ "") :
    ∀ (entries : List String) (acc : List (String × List String)),
    dictLookup (entries.foldl addEntry acc) k
      = extendLookup (dictLookup acc k)
          (entries.filter (fun e => !endsWithSlash e && parentFolder e == k)) := by
  intro entries
  induction entries with
  | nil =>
    intro acc
    cases h : dictLookup acc k <;> simp [extendLookup, h]
  | cons e es ih =>
    intro acc
    show dictLookup (es.foldl addEntry (addEntry acc e)) k = _
    rw [ih (addEntry acc e)]
    by_cases hd : endsWithSlash e
    · have ha : addEntry acc e = acc := by simp [addEntry, hd]
      have hf : (e :: es).filter (fun e2 => !endsWithSlash e2 && parentFolder e2 == k)
          = es.filter (fun e2 => !endsWithSlash e2 && parentFolder e2 == k) := by
        simp [List.filter_cons, hd]
      rw [ha, hf]
    · by_cases hp : parentFolder e = ""
      · have ha : addEntry acc e = acc := by simp [addEntry, hd, hp]
        have hpk : (parentFolder e == k) = false := by
          rw [hp]
          exact beq_false_of_ne (Ne.symm hk)
        have hf : (e :: es).filter (fun e2 => !endsWithSlash e2 && parentFolder e2 == k)
            = es.filter (fun e2 => !endsWithSlash e2 && parentFolder e2 == k) := by
          simp [List.filter_cons, hd, hpk]
        rw [ha, hf]
      · by_cases hpk : parentFolder e = k
        · have ha : addEntry acc e = dictAppend acc k e := by
            simp [addEntry, hd, hp, hpk, hk]
          have hf : (e :: es).filter (fun e2 => !endsWithSlash e2 && parentFolder e2 == k)
              = e :: es.filter (fun e2 => !endsWithSlash e2 && parentFolder e2 == k) := by
            simp [List.filter_cons, hd, hpk]
          rw [ha, dictAppend_lookup_self, hf]
          cases h : dictLookup acc k <;> simp [extendLookup, h]
        · have ha : addEntry acc e = dictAppend acc (parentFolder e) e := by
            simp [addEntry, hd, hp]
          have hpkb : (parentFolder e == k) = false := beq_false_of_ne hpk
          have hf : (e :: es).filter (fun e2 => !endsWithSlash e2 && parentFolder e2 == k)
              = es.filter (fun e2 => !endsWithSlash e2 && parentFolder e2 == k) := by
            simp [List.filter_cons, hd, hpkb]
          rw [ha, dictAppend_lookup_other _ _ _ _ hpk, hf]

/-- C4: the grouping pass of pipeline A: for every entry list and every
non-empty group name, the group's member list is exactly the entries
that are not directories (no trailing separator) and whose innermost
containing directory is that group, in archive order; the spec's example
produces exactly one group "a" whose members' base names are 1.jpg and
2.png. -/
theorem C4_archive_grouping (entries : List String) (k : String) (hk : k ≠ "") :
    dictLookup (groupEntries entries) k
      = (if (entries.filter (fun e => !endsWithSlash e && parentFolder e == k)).isEmpty
         then none
         else some (entries.filter (fun e => !endsWithSlash e && parentFolder e == k)))
    ∧ groupEntries ["a/1.jpg", "a/2.png", "b/", "c.jpg"] = [("a", ["a/1.jpg", "a/2.png"])]
    ∧ ["a/1.jpg", "a/2.png"].map afterLastSlash = ["1.jpg", "2.png"] := by
  refine ⟨?_, by decide, by decide⟩
  exact groupEntries_lookup_aux k hk entries []

/-- C4 witness: the spec example, looked up at group "a". -/
theorem C4_archive_grouping_witness :
    dictLookup (groupEntries ["a/1.jpg", "a/2.png", "b/", "c.jpg"]) "a"
      = some ["a/1.jpg", "a/2.png"] :=
  (C4_archive_grouping ["a/1.jpg", "a/2.png", "b/", "c.jpg"] "a" (by decide)).1.trans (by decide)

/-! ### Helper lemmas, claim theorem and counterexample for timestamped names (C6) -/

theorem hexDigitChar_isDigit (d : Nat) (h : d ≤ 9) : (hexDigitChar d).isDigit = true := by
  interval_cases d <;> decide

theorem strftime_format (t : Timestamp) (hy : t.year ≤ 9999) (hmo : t.month ≤ 99)
    (hd : t.day ≤ 99) (hh : t.hour ≤ 99) (hmi : t.minute ≤ 99) (hs : t.second ≤ 99) :
    isCompactTimestamp (strftimeCompact t) = true := by
  have hdata : (strftimeCompact t).data
      = [hexDigitChar (t.year / 1000), hexDigitChar (t.year / 100 % 10),
         hexDigitChar (t.year / 10 % 10), hexDigitChar (t.year % 10),
         hexDigitChar (t.month / 10), hexDigitChar (t.month % 10),
         hexDigitChar (t.day / 10), hexDigitChar (t.day % 10), '_',
         hexDigitChar (t.hour / 10), hexDigitChar (t.hour % 10),
         hexDigitChar (t.minute / 10), hexDigitChar (t.minute % 10),
         hexDigitChar (t.second / 10), hexDigitChar (t.second % 10)] := rfl
  have hx : ∀ n : Nat, (hexDigitChar (n % 10)).isDigit = true :=
    fun n => hexDigitChar_isDigit _ (by omega)
  have h1 : (hexDigitChar (t.year / 1000)).isDigit = true := hexDigitChar_isDigit _ (by omega)
  have h2 : (hexDigitChar (t.month / 10)).isDigit = true := hexDigitChar_isDigit _ (by omega)
  have h3 : (hexDigitChar (t.day / 10)).isDigit = true := hexDigitChar_isDigit _ (by omega)
  have h4 : (hexDigitChar (t.hour / 10)).isDigit = true := hexDigitChar_isDigit _ (by omega)
  have h5 : (hexDigitChar (t.minute / 10)).isDigit = true := hexDigitChar_isDigit _ (by omega)
  have h6 : (hexDigitChar (t.second / 10)).isDigit = true := hexDigitChar_isDigit _ (by omega)
  unfold isCompactTimestamp
  rw [hdata]
  simp [hx, h1, h2, h3, h4, h5, h6]

theorem takeWhileNoDot (e2 : List Char) : ∀ b : List Char, '.' ∉ b →
    (b ++ '.' :: e2).takeWhile (fun c => decide (c ≠ '.')) = b := by
  intro b
  induction b with
  | nil => intro _; simp [List.takeWhile_cons]
  | cons x xs ih =>
    intro hb
    have hx : x ≠ '.' := fun hc => hb (by rw [hc]; exact List.mem_cons_self _ _)
    have hdec : decide (x ≠ '.') = true := by simp [hx]
    rw [List.cons_append, List.takeWhile_cons, hdec, if_pos rfl,
      ih (fun hm => hb (List.mem_cons_of_mem x hm))]

theorem beforeFirstDot_eq (name : String) (b e2 : List Char) (hn : name.data = b ++ '.' :: e2)
    (hb : '.' ∉ b) : beforeFirstDot name = String.mk b := by
  unfold beforeFirstDot
  rw [hn]
  exact congrArg String.mk (takeWhileNoDot e2 b hb)

theorem foldlStepNoDot (e2 : List Char) (he : '.' ∉ e2) :
    ∀ acc : List Char,
    e2.foldl (fun acc c => if c = '.' then [] else acc ++ [c]) acc = acc ++ e2 := by
  induction e2 with
  | nil => intro acc; simp
  | cons x xs ih =>
    intro acc
    have hx : ¬ x = '.' := fun hc => he (by rw [hc]; exact List.mem_cons_self _ _)
    rw [List.foldl_cons, if_neg hx,
      ih (fun hm => he (List.mem_cons_of_mem x hm)) (acc ++ [x])]
    simp

theorem afterLastDot_eq (name : String) (b e2 : List Char) (hn : name.data = b ++ '.' :: e2)
    (he : '.' ∉ e2) : afterLastDot name = String.mk e2 := by
  unfold afterLastDot afterLastDotL
  rw [hn, List.foldl_append, List.foldl_cons, if_pos rfl, foldlStepNoDot e2 he []]
  rfl

/-- C6 counterexample: pipeline C keeps only the part before the first
dot and after the last dot of the image name, so for "a.b.jpg" the
stored key ends in a_TIMESTAMP.jpg, not the claimed a.b_TIMESTAMP.jpg. -/
theorem C6_counterexample :
    processImageBytes envC "d" "20240101_000000"
        ⟨"a.b.jpg", InboundDocumentType.IMAGE, "zz"⟩
      = ["d/a_20240101_000000.jpg"]
    ∧ ("d/a_20240101_000000.jpg" : String) ≠ "d/a.b_20240101_000000.jpg" :=
  ⟨by decide, by decide⟩

/-- C6 (amended): in pipeline A every stored file name is
base_TIMESTAMP(ext) with splitext semantics, the timestamp read at that
file's clock tick; the rendered timestamp always has the compact
YYYYMMDD_HHMMSS shape for in-range clock fields; in pipeline C, for
image names containing exactly one dot, the stored name is
base_TIMESTAMP.ext (for other names the code keeps only the part before
the first dot and after the last dot, see the counterexample); one
timestamp is read per product batch and shared by all of its images. -/
theorem C6_timestamp_naming :
    (∀ (env : Env) (entries : List ZipEntry) (dir : String) (k : Nat)
        (file_path : String) (c : Bytes),
        readZip entries file_path = .ok c →
        processFolderFile env entries dir k file_path
          = (match save_file env c ((splitext (afterLastSlash file_path)).1 ++ "_"
                ++ strftimeCompact (env.clock k) ++ (splitext (afterLastSlash file_path)).2)
                dir (extContentType (pyLower (splitext ((splitext (afterLastSlash file_path)).1
                  ++ "_" ++ strftimeCompact (env.clock k)
                  ++ (splitext (afterLastSlash file_path)).2)).2)) with
             | .ok u => (u, k + 1)
             | .error e => ("Error processing file " ++ file_path ++ ": " ++ e, k + 1)))
    ∧ (∀ t : Timestamp, t.year ≤ 9999 → t.month ≤ 99 → t.day ≤ 99 → t.hour ≤ 99 →
        t.minute ≤ 99 → t.second ≤ 99 →
        isCompactTimestamp (strftimeCompact t) = true)
    ∧ (∀ (env : Env) (dir ts : String) (image : ImageBytes) (b e2 : List Char),
        image.image_name.data = b ++ '.' :: e2 → '.' ∉ b → '.' ∉ e2 →
        processImageBytes env dir ts image
          = match env.b64decode image.image_bytes with
            | .error _ => []
            | .ok bs =>
              match save_file env bs (String.mk b ++ "_" ++ ts ++ "." ++ String.mk e2) dir
                  image.image_type.value with
              | .ok u => [u]
              | .error _ => [])
    ∧ (∀ (env : Env) (tenant : String) (user : User) (k : Nat) (product : ProductBytes),
        processProduct env tenant user k product
          = (product.images.map (processImageBytes env
              (get_oaas_directory tenant user product.product_code)
              (strftimeCompact (env.clock k)))).flatten)
    ∧ (∀ (env : Env) (tenant : String) (user : User) (k : Nat)
        (acc : List (String × List String)) (p : ProductBytes) (ps : List ProductBytes),
        uploadProductsGo env tenant user k acc (p :: ps)
          = uploadProductsGo env tenant user (k + 1)
              (dictSet acc p.product_code (processProduct env tenant user k p)) ps) := by
  refine ⟨?_, ?_, ?_, fun env tenant user k product => rfl,
    fun env tenant user k acc p ps => rfl⟩
  · intro env entries dir k file_path c h
    simp only [processFolderFile, h]
  · exact strftime_format
  · intro env dir ts image b e2 hn hb he
    have hbn : beforeFirstDot image.image_name = String.mk b := beforeFirstDot_eq _ b e2 hn hb
    have hen : afterLastDot image.image_name = String.mk e2 := afterLastDot_eq _ b e2 hn he
    simp only [processImageBytes, hbn, hen]

/-- C6 witness: a concrete archive entry is stored with the timestamp
between base name and extension, advancing the clock index. -/
theorem C6_timestamp_naming_witness :
    processFolderFile envC [⟨"a/f.jpg", Except.ok [1]⟩] "d" 0 "a/f.jpg"
      = ("d/f_20240101_000000.jpg", 1) :=
  (C6_timestamp_naming.1 envC [⟨"a/f.jpg", Except.ok [1]⟩] "d" 0 "a/f.jpg" [1]
    (by decide)).trans (by decide)

/-- C5 witness: the product whose single image fails to decode still
appears as a key, with the empty list as its value. -/
theorem C5_inline_bytes_policy_witness :
    dictLookup (upload_product_bytes envB reqC) "PX" = some [] :=
  C5_inline_bytes_policy.2.2.2 envB reqC 0 (by decide) (by decide)
    (fun image him => by
      cases him with
      | head => exact ⟨"Incorrect padding", rfl⟩
      | tail _ h2 => cases h2)

/-- Validation of the SHA-256 embedding against the FIPS 180-4 "abc"
test vector. -/
theorem sha256hex_vector_abc :
    sha256hex "abc" = "ba7816bf8f01cfea414140de5dae2223b00361a396177a9cb410ff61f20015ad" := by
  decide

/-- Validation of the SHA-256 embedding on the empty message. -/
theorem sha256hex_vector_empty :
    sha256hex "" = "e3b0c44298fc1c149afbf4c8996fb92427ae41e4649b934ca495991b7852b855" := by
  decide

/-- Validation of the SHA-1 embedding against the FIPS 180-4 "abc" test
vector. -/
theorem sha1hex_vector_abc :
    sha1hex "abc" = "a9993e364706816aba3e25717850c26c9cd0d89d" := by
  decide

end Oaas
